import Mathlib

/-!
Shallow embedding of the Horizon 60 portfolio application (src/app.js).

Modelling conventions:
- JS numbers on the portfolio/formatting side are modelled as exact
  rationals (ℚ); nullable fields are `Option ℚ` / `Option String`, with
  `none` standing for both JS `null`/`undefined` and `NaN` (ℚ has no NaN;
  the source guards `x != null && !Number.isNaN(x)` collapse to `isSome`).
- The forecast side (src/app.js, time-value-of-money section) uses real
  Math.pow with fractional exponents and Math.log, so it is modelled over
  ℝ with Real.rpow and Real.log.
- The global `state.priceCache` (ticker → { price, at }) is passed
  explicitly as an association list of ticker → price (the `at` timestamp
  is never read by the valuation functions). Functions that look an
  account up in `state.accounts` by id take the account directly.
- Holding `id` fields (Math.random strings) are omitted: no valuation
  function, importer or forecast function reads them.
-/

/-- Account types, from the ACCOUNT_TYPES constant of src/app.js. -/
inductive AccountType where
  | Cash
  | Retirement
  | Crypto
  | Debt
  deriving DecidableEq, Repr

/-- One holding: `balance` for Cash/Debt holdings; `ticker`, `quantity`,
`purchasePrice` (or the legacy total `costBasis`) for security holdings;
`priceOverride` for a manual price. Every field is nullable in the JS data. -/
structure Holding where
  ticker : Option String := none
  quantity : Option ℚ := none
  purchasePrice : Option ℚ := none
  costBasis : Option ℚ := none
  balance : Option ℚ := none
  priceOverride : Option ℚ := none
  deriving DecidableEq, Repr

/-- An account: a type plus its list of holdings (name/institution kept for
fidelity to the JS record; `id` omitted, see module docstring). -/
structure Account where
  name : String := ""
  institution : String := ""
  type : AccountType := AccountType.Cash
  holdings : List Holding := []
  deriving DecidableEq, Repr

/-- The price cache `state.priceCache`, modelled as ticker → price. -/
abbrev PriceCache := List (String × ℚ)

/-- `getPurchasePrice` (src/app.js lines 32-37): per-unit purchase price,
derived from the legacy total `costBasis` when needed.
JS: `qty = Number(holding.quantity) || 0`; return `purchasePrice` when
non-null and not NaN; else `costBasis / qty` when `costBasis != null`,
`costBasis > 0` and `qty > 0`; else null. -/
def getPurchasePrice (holding : Holding) : Option ℚ :=
  let qty := holding.quantity.getD 0
  match holding.purchasePrice with
  | some pp => some pp
  | none =>
    match holding.costBasis with
    | some cb => if 0 < cb ∧ 0 < qty then some (cb / qty) else none
    | none => none

/-- `isSecurityType` (src/app.js): Retirement and Crypto accounts hold
securities; Cash and Debt hold plain balances. -/
def isSecurityType (type : AccountType) : Bool :=
  type = AccountType.Retirement ∨ type = AccountType.Crypto

/-- `getHoldingCostBasis` (src/app.js lines 40-45): quantity × purchase
price for security holdings, null otherwise. -/
def getHoldingCostBasis (holding : Holding) (accountType : AccountType) : Option ℚ :=
  if isSecurityType accountType then
    match getPurchasePrice holding with
    | some pp => some (holding.quantity.getD 0 * pp)
    | none => none
  else none

/-- Model of the JS `String.prototype.toUpperCase` builtin (char-wise
uppercasing, as Lean's `String.toUpper` does; defined over the char list
so concrete instances evaluate). -/
def jsToUpperCase (s : String) : String :=
  String.mk (s.toList.map Char.toUpper)

/-- Model of the JS `String.prototype.trim` builtin: strip leading and
trailing whitespace. -/
def jsTrim (s : String) : String :=
  String.mk
    (((s.toList.dropWhile Char.isWhitespace).reverse.dropWhile Char.isWhitespace).reverse)

/-- `getCurrentPrice` (src/app.js lines 73-78): `priceOverride` when set
and numeric, else the cache entry under the uppercased ticker, else the
derived purchase price. -/
def getCurrentPrice (cache : PriceCache) (holding : Holding) : Option ℚ :=
  match holding.priceOverride with
  | some p => some p
  | none =>
    match holding.ticker with
    | some t =>
      match cache.lookup (jsToUpperCase t) with
      | some p => some p
      | none => getPurchasePrice holding
    | none => getPurchasePrice holding

/-- `getHoldingValue` (src/app.js lines 81-88): quantity × current price
for security holdings (null when no price resolves); `Number(balance) || 0`
for balance holdings. -/
def getHoldingValue (cache : PriceCache) (holding : Holding)
    (accountType : AccountType) : Option ℚ :=
  if isSecurityType accountType then
    match getCurrentPrice cache holding with
    | some price => some (holding.quantity.getD 0 * price)
    | none => none
  else some (holding.balance.getD 0)

/-- `getHoldingMarketValue` (src/app.js): alias for `getHoldingValue`. -/
def getHoldingMarketValue (cache : PriceCache) (holding : Holding)
    (accountType : AccountType) : Option ℚ :=
  getHoldingValue cache holding accountType

/-- `getAccountBalance` (src/app.js lines 91-98): sum of holding values,
skipping null valuations (the JS `Number.isNaN` guard has no ℚ analogue). -/
def getAccountBalance (cache : PriceCache) (account : Account) : ℚ :=
  account.holdings.foldl
    (fun total h =>
      match getHoldingValue cache h account.type with
      | some v => total + v
      | none => total)
    0

/-- `getTotalNetWorth` (src/app.js lines 101-108): sum of account balances
with Debt balances subtracted. -/
def getTotalNetWorth (cache : PriceCache) (accounts : List Account) : ℚ :=
  accounts.foldl
    (fun nw a =>
      let bal := getAccountBalance cache a
      if a.type = AccountType.Debt then nw - bal else nw + bal)
    0

/-- `getHoldingProfitLossDollar` (src/app.js lines 138-144): market value
minus cost basis, null when either is missing or the account is not a
security account. -/
def getHoldingProfitLossDollar (cache : PriceCache) (holding : Holding)
    (accountType : AccountType) : Option ℚ :=
  if isSecurityType accountType then
    match getHoldingCostBasis holding accountType,
          getHoldingMarketValue cache holding accountType with
    | some costBasis, some marketVal => some (marketVal - costBasis)
    | _, _ => none
  else none

/-- `getHoldingProfitLossPct` (src/app.js lines 147-152): `(pl / cb) * 100`,
null when the cost basis is null or zero or the dollar P/L is null. -/
def getHoldingProfitLossPct (cache : PriceCache) (holding : Holding)
    (accountType : AccountType) : Option ℚ :=
  match getHoldingCostBasis holding accountType,
        getHoldingProfitLossDollar cache holding accountType with
  | some cb, some pl => if cb = 0 then none else some (pl / cb * 100)
  | _, _ => none

/-- Decimal digits of a char list, most significant first (helper for the
model of the JS `parseFloat` builtin). -/
def digitsToNat (cs : List Char) : Nat :=
  cs.foldl (fun n c => n * 10 + (c.toNat - Char.toNat (Char.ofNat 48))) 0

/-- Model of the JS `parseFloat` builtin as used by the CSV importer:
skip leading whitespace, optional sign, integer digits, optional fraction
digits; `none` when no digit is consumed (JS `NaN`). Exponent suffixes are
not modelled (never produced by the CSV template). -/
def parseFloat (s : String) : Option ℚ :=
  let cs := s.toList.dropWhile (fun c => c.isWhitespace)
  let signAndRest : ℚ × List Char :=
    match cs with
    | c :: rest => if c = Char.ofNat 45 then (-1, rest) else if c = Char.ofNat 43 then (1, rest) else (1, cs)
    | [] => (1, cs)
  let sign := signAndRest.1
  let cs1 := signAndRest.2
  let intDigits := cs1.takeWhile (fun c => c.isDigit)
  let cs2 := cs1.dropWhile (fun c => c.isDigit)
  let fracDigits : List Char :=
    match cs2 with
    | c :: rest => if c = Char.ofNat 46 then rest.takeWhile (fun c => c.isDigit) else []
    | [] => []
  if intDigits.isEmpty ∧ fracDigits.isEmpty then none
  else
    some (sign * ((digitsToNat intDigits : ℚ)
      + (digitsToNat fracDigits : ℚ) / (10 : ℚ) ^ fracDigits.length))

/-- Fixed-decimal rendering of a nonnegative rational, the model of JS
`Number.prototype.toFixed` on the nonnegative values `formatMoney` feeds it
(round half away from zero). -/
def toFixed (d : Nat) (q : ℚ) : String :=
  let m := (⌊q * (10 : ℚ) ^ d + 1 / 2⌋).toNat
  let ip := m / 10 ^ d
  let fp := m % 10 ^ d
  if d = 0 then toString ip
  else
    let fpStr := toString fp
    toString ip ++ "." ++ String.mk (List.replicate (d - fpStr.length) (Char.ofNat 48)) ++ fpStr

/-- Thousands grouping of a digit string (model of the en-US `Intl`
grouping used by `formatMoneyFull`). -/
def groupDigits (s : String) : String :=
  String.mk ((((s.toList.reverse.toChunks 3).intersperse [Char.ofNat 44]).flatten).reverse)

/-- Two-digit zero-padded rendering of a Nat below 100 (cents). -/
def padTwo (n : Nat) : String :=
  if n < 10 then "0" ++ toString n else toString n

/-- Model of `Intl.NumberFormat` en-US USD formatting of a number:
`$` + grouped integer part + `.` + two fraction digits, with a leading
minus for negative amounts (default halfExpand rounding). -/
def intlFormatUSD (v : ℚ) : String :=
  if v < 0 then
    "-$" ++ (let m := (⌊-v * 100 + 1 / 2⌋).toNat
             groupDigits (toString (m / 100)) ++ "." ++ padTwo (m % 100))
  else
    "$" ++ (let m := (⌊v * 100 + 1 / 2⌋).toNat
            groupDigits (toString (m / 100)) ++ "." ++ padTwo (m % 100))

/-- `formatMoney` (src/app.js lines 56-61): compact money formatter. Null
and NaN inputs (modelled as `none`) render the placeholder dash; amounts at
or above 1e6 abbreviate with an `M` suffix, at or above 1e3 with a `k`
suffix, else two fixed decimals; negative sign before the dollar sign. -/
def formatMoney (n : Option ℚ) : String :=
  match n with
  | none => "—"
  | some v =>
    let abs := |v|
    let s :=
      if 1000000 ≤ abs then toFixed 2 (abs / 1000000) ++ "M"
      else if 1000 ≤ abs then toFixed 1 (abs / 1000) ++ "k"
      else toFixed 2 abs
    (if v < 0 then "-" else "") ++ "$" ++ s

/-- `formatMoneyFull` (src/app.js lines 63-66): full fixed two-decimal
formatter. Null and NaN inputs (modelled as `none`) render `$0.00`; numeric
inputs go through the en-US USD `Intl.NumberFormat`. -/
def formatMoneyFull (n : Option ℚ) : String :=
  match n with
  | none => "$0.00"
  | some v => intlFormatUSD v

/-- One parsed CSV row under the fixed column contract of the import
template: raw cell text for the Ticker, Symbol, Quantity and
Average Cost Basis columns (a missing column reads as the empty string,
as an absent JS object key is falsy). -/
structure CSVRow where
  ticker : String := ""
  symbol : String := ""
  quantity : String := ""
  averageCostBasis : String := ""
  deriving DecidableEq, Repr

/-- Result record of `parseCSVRowToHolding`. -/
structure ParsedHolding where
  ticker : String
  quantity : ℚ
  purchasePrice : Option ℚ
  deriving DecidableEq, Repr

/-- `parseCSVRowToHolding` (src/app.js lines 270-276): Ticker falls back to
Symbol when falsy, is trimmed and uppercased; Quantity is
`parseFloat(...) || 0`; Average Cost Basis is stripped of `$` and `,` then
`parseFloat(...) || 0`, kept as `purchasePrice` only when positive. -/
def parseCSVRowToHolding (row : CSVRow) : ParsedHolding :=
  let ticker := jsTrim (if row.ticker = "" then row.symbol else row.ticker)
  let qty := (parseFloat row.quantity).getD 0
  let avgCost :=
    (parseFloat (String.mk (row.averageCostBasis.toList.filter
      (fun c => ¬(c = Char.ofNat 36 ∨ c = Char.ofNat 44))))).getD 0
  { ticker := if ticker = "" then "" else jsToUpperCase ticker
    quantity := qty
    purchasePrice := if 0 < avgCost then some avgCost else none }

/-- Holding record pushed by the bulk importer for one accepted row. -/
def parsedToHolding (p : ParsedHolding) : Holding :=
  { ticker := some p.ticker, quantity := some p.quantity, purchasePrice := p.purchasePrice }

/-- Loop body of `importFromCSVIntoAccount` (src/app.js lines 318-324):
push a holding (and count it) when the account holds securities and the
parsed ticker is truthy (non-empty), else leave the state unchanged. -/
def importStep (account : Account) (st : Account × Nat) (row : CSVRow) : Account × Nat :=
  let parsed := parseCSVRowToHolding row
  if isSecurityType account.type ∧ parsed.ticker ≠ "" then
    ({ st.1 with holdings := st.1.holdings ++ [parsedToHolding parsed] }, st.2 + 1)
  else st

/-- `importFromCSVIntoAccount` (src/app.js lines 313-330): fold the rows
of the CSV through `importStep`; returns the updated account and the
number of added holdings. The by-id account lookup is modelled by passing
the account; empty `rows` leave the account unchanged with 0 added. -/
def importFromCSVIntoAccount (rows : List CSVRow) (account : Account) : Account × Nat :=
  if rows.isEmpty then (account, 0)
  else rows.foldl (importStep account) (account, 0)

/-- `monthlyRateFromAnnual` (src/app.js lines 932-935): effective monthly
compounding rate from a nominal annual percentage,
`(1 + annualPercent/100)^(1/12) - 1` (Real.rpow models Math.pow). -/
noncomputable def monthlyRateFromAnnual (annualPercent : ℝ) : ℝ :=
  (1 + annualPercent / 100) ^ ((1 : ℝ) / 12) - 1

/-- Clamped whole-month horizon `n = Math.max(0, Math.floor(totalMonths))`
of `futureValueWithContributions`. -/
def fvTotalMonths (totalMonths : ℚ) : ℕ :=
  (max 0 ⌊totalMonths⌋).toNat

/-- Clamped contribution months
`m = Math.max(0, Math.min(Math.floor(monthsContributing), n))` of
`futureValueWithContributions`. -/
def fvContribMonths (monthsContributing totalMonths : ℚ) : ℕ :=
  (max 0 (min ⌊monthsContributing⌋ (fvTotalMonths totalMonths : ℤ))).toNat

/-- The `fvAnnuity` expression of `futureValueWithContributions`
(src/app.js line 957): ordinary-annuity future value of `pmt` over `m`
months at monthly rate `i`, degenerating to `pmt * m` at zero rate. -/
noncomputable def annuityFV (pmt i : ℝ) (m : ℕ) : ℝ :=
  if i = 0 then pmt * m else pmt * ((1 + i) ^ m - 1) / i

/-- `futureValueWithContributions` (src/app.js lines 945-963): future value
of the present balance plus an ordinary annuity of monthly contributions
for the first `m` months, grown without contributions to month `n`. Month
arguments are taken as ℚ so the JS `Math.floor` clamps stay executable. -/
noncomputable def futureValueWithContributions (pv pmt annualPercent : ℝ)
    (monthsContributing totalMonths : ℚ) : ℝ :=
  let i := monthlyRateFromAnnual annualPercent
  let n := fvTotalMonths totalMonths
  let m := fvContribMonths monthsContributing totalMonths
  if n = 0 then pv
  else
    let fvFromPv := pv * (1 + i) ^ n
    if m = 0 then fvFromPv
    else
      let valueAtM := pv * (1 + i) ^ m + annuityFV pmt i m
      if n ≤ m then valueAtM else valueAtM * (1 + i) ^ (n - m)

/-- `monthsToPayoffLoan` (src/app.js lines 978-989): 0 months for a
non-positive balance; null for a non-positive payment or a payment not
exceeding the monthly interest; otherwise the ceiling of the amortization
formula, with the source final guard `months <= 0 ? null : months`.
At zero effective rate the JS source computes `log(1)/log(1)`, i.e. `0/0`,
which is `NaN` and flows out of the function (neither null nor a count);
under the total-division convention of ℝ the same expression is `0`, which
the final guard maps to `none` — both deviate from a whole-month count.
The amortization expression `const n = log(pmt / (pmt - pv*r)) / log(1+r)`
of src/app.js line 986 is named `payoffMonthsExact`. -/
noncomputable def payoffMonthsExact (pv monthlyPmt annualPercent : ℝ) : ℝ :=
  Real.log (monthlyPmt / (monthlyPmt - pv * monthlyRateFromAnnual annualPercent))
    / Real.log (1 + monthlyRateFromAnnual annualPercent)

noncomputable def monthsToPayoffLoan (pv monthlyPmt annualPercent : ℝ) : Option ℤ :=
  if pv ≤ 0 then some 0
  else if monthlyPmt ≤ 0 then none
  else
    let r := monthlyRateFromAnnual annualPercent
    if monthlyPmt ≤ pv * r then none
    else
      let months := ⌈payoffMonthsExact pv monthlyPmt annualPercent⌉
      if months ≤ 0 then none else some months

/-- `getProjectedAccountBalance` (src/app.js lines 1041-1064): projected
balance of one account `yearsFromNow` years out, clamped at zero. The by-id
lookups are modelled by passing the account and its forecast settings
(`monthlyContribution`, `annualReturnPercent`, `horizonYears`) directly;
the clock-dependent `monthsUntil(contributionStopDate)` value is the
parameter `monthsUntilStop`, with `none` modelling its `Infinity` result
(so the `Math.min` with it returns `totalMonths`). -/
noncomputable def getProjectedAccountBalance (cache : PriceCache) (account : Account)
    (monthlyContribution annualReturnPercent horizonYears : ℚ)
    (monthsUntilStop : Option ℚ) (yearsFromNow : ℚ) : ℝ :=
  let pv : ℚ := getAccountBalance cache account
  let horizonMonths := (if horizonYears = 0 then 30 else horizonYears) * 12
  let totalMonths := min (yearsFromNow * 12) horizonMonths
  let monthsContrib : ℚ :=
    if account.type = AccountType.Debt then
      match monthsToPayoffLoan (pv : ℝ) (monthlyContribution : ℝ) (annualReturnPercent : ℝ) with
      | none => totalMonths
      | some p => min (p : ℚ) totalMonths
    else
      match monthsUntilStop with
      | none => totalMonths
      | some k => min k totalMonths
  let pmt : ℚ := if account.type = AccountType.Debt then -monthlyContribution else monthlyContribution
  max 0 (futureValueWithContributions (pv : ℝ) (pmt : ℝ) (annualReturnPercent : ℝ)
    monthsContrib totalMonths)

/-- Holdings added to an account by `importFromCSVIntoAccount`: the parsed
rows of a security account whose resolved ticker is non-empty, in order
(the only acceptance test the importer applies). -/
def csvAddedHoldings (rows : List CSVRow) (account : Account) : List Holding :=
  ((rows.map parseCSVRowToHolding).filter
    (fun p => isSecurityType account.type ∧ p.ticker ≠ "")).map parsedToHolding

/-- Legacy-format holding of the spec example: total costBasis 1500 over
quantity 10, no per-unit purchasePrice. -/
def legacyHolding : Holding :=
  { ticker := some "VTI", quantity := some 10, costBasis := some 1500 }

/-- Direct-format holding of the spec example: per-unit purchasePrice 150. -/
def directHolding : Holding :=
  { ticker := some "VTI", quantity := some 10, purchasePrice := some 150 }

/-! ### Shared lemmas -/

lemma isSecurityType_cash : isSecurityType AccountType.Cash = false := rfl

lemma isSecurityType_retirement : isSecurityType AccountType.Retirement = true := rfl

lemma isSecurityType_crypto : isSecurityType AccountType.Crypto = true := rfl

lemma isSecurityType_debt : isSecurityType AccountType.Debt = false := rfl

lemma foldl_holdingValues (cache : PriceCache) (t : AccountType)
    (hs : List Holding) (init : ℚ) :
    hs.foldl (fun total h =>
        match getHoldingValue cache h t with
        | some v => total + v
        | none => total) init
      = init + (hs.filterMap (fun h => getHoldingValue cache h t)).sum := by
  induction hs generalizing init with
  | nil => simp
  | cons h l ih =>
    simp only [List.foldl_cons, List.filterMap_cons]
    cases hv : getHoldingValue cache h t with
    | none => simp only [hv]; rw [ih]
    | some v => simp only [hv]; rw [ih, List.sum_cons]; ring

lemma foldl_netWorth (cache : PriceCache) (accounts : List Account) (init : ℚ) :
    accounts.foldl (fun nw a =>
        let bal := getAccountBalance cache a
        if a.type = AccountType.Debt then nw - bal else nw + bal) init
      = init + (accounts.map (fun a =>
          if a.type = AccountType.Debt then -getAccountBalance cache a
          else getAccountBalance cache a)).sum := by
  induction accounts generalizing init with
  | nil => simp
  | cons a l ih =>
    simp only [List.foldl_cons, List.map_cons, List.sum_cons]
    rw [ih]
    by_cases hd : a.type = AccountType.Debt
    · simp only [if_pos hd]
      ring
    · simp only [if_neg hd]
      ring

/-! ### C3: current price resolution order -/

/-- C3: for every security holding, `getCurrentPrice` resolves the
holding's `priceOverride` first when it is set; otherwise the price-cache
entry under the uppercased ticker when present; otherwise the derived
purchase price; and it returns null exactly when all three tiers are
absent. -/
theorem getCurrentPrice_resolution (cache : PriceCache) (h : Holding) :
    (∀ p, h.priceOverride = some p → getCurrentPrice cache h = some p)
    ∧ (h.priceOverride = none → ∀ t p, h.ticker = some t →
        cache.lookup (jsToUpperCase t) = some p → getCurrentPrice cache h = some p)
    ∧ (h.priceOverride = none →
        (∀ t, h.ticker = some t → cache.lookup (jsToUpperCase t) = none) →
        getCurrentPrice cache h = getPurchasePrice h)
    ∧ (getCurrentPrice cache h = none ↔
        h.priceOverride = none
          ∧ (∀ t, h.ticker = some t → cache.lookup (jsToUpperCase t) = none)
          ∧ getPurchasePrice h = none) := by
  refine ⟨?_, ?_, ?_, ?_⟩
  · intro p hp
    simp [getCurrentPrice, hp]
  · intro hov t p ht hl
    simp [getCurrentPrice, hov, ht, hl]
  · intro hov hnone
    cases ht : h.ticker with
    | none => simp [getCurrentPrice, hov, ht]
    | some t => simp [getCurrentPrice, hov, ht, hnone t ht]
  · cases hov : h.priceOverride with
    | some p => simp [getCurrentPrice, hov]
    | none =>
      cases ht : h.ticker with
      | none =>
        simp only [getCurrentPrice, hov, ht]
        constructor
        · intro hp
          exact ⟨trivial, fun u hu => absurd hu (by simp), hp⟩
        · intro hp
          exact hp.2.2
      | some t =>
        cases hl : List.lookup (jsToUpperCase t) cache with
        | some p =>
          simp only [getCurrentPrice, hov, ht, hl]
          constructor
          · intro hp
            exact absurd hp (by simp)
          · intro hp
            have hcontra := hp.2.1 t rfl
            rw [hl] at hcontra
            exact absurd hcontra (by simp)
        | none =>
          simp only [getCurrentPrice, hov, ht, hl]
          constructor
          · intro hp
            refine ⟨trivial, ?_, hp⟩
            intro u hu
            have : t = u := by injection hu
            rw [← this]
            exact hl
          · intro hp
            exact hp.2.2

/-- C3 witness: a holding with a price override of 7 resolves to 7. -/
theorem getCurrentPrice_resolution_witness :
    getCurrentPrice [] { priceOverride := some 7 } = some 7 :=
  (getCurrentPrice_resolution [] { priceOverride := some 7 }).1 7 rfl

/-! ### C4: total net worth subtracts Debt -/

/-- C4: `getTotalNetWorth` is the sum of account balances with every
Debt-typed balance subtracted; on the two-account Cash 10000 / Debt 3000
example it yields 7000. -/
theorem getTotalNetWorth_spec (cache : PriceCache) (accounts : List Account) :
    getTotalNetWorth cache accounts
      = (accounts.map (fun a =>
          if a.type = AccountType.Debt then -getAccountBalance cache a
          else getAccountBalance cache a)).sum
    ∧ getTotalNetWorth []
        [{ type := AccountType.Cash, holdings := [{ balance := some 10000 }] },
         { type := AccountType.Debt, holdings := [{ balance := some 3000 }] }]
      = 7000 := by
  constructor
  · rw [getTotalNetWorth, foldl_netWorth, zero_add]
  · have hne : AccountType.Cash ≠ AccountType.Debt := fun hc => AccountType.noConfusion hc
    norm_num [getTotalNetWorth, getAccountBalance, getHoldingValue,
      isSecurityType_cash, isSecurityType_debt, hne]

/-! ### C5: account balance sums holdings, skipping null valuations -/

/-- C5: `getAccountBalance` is the sum of the non-null holding market
values (null valuations are excluded, not coerced to zero); a security
holding with a known quantity and a resolved current price is valued at
exactly quantity × price; a balance holding is valued at its stored
balance, coerced to 0 when missing. -/
theorem getAccountBalance_spec (cache : PriceCache) (account : Account) :
    getAccountBalance cache account
      = (account.holdings.filterMap (fun h => getHoldingValue cache h account.type)).sum
    ∧ (∀ h q p, isSecurityType account.type = true → h.quantity = some q → 0 < q →
        getCurrentPrice cache h = some p →
        getHoldingMarketValue cache h account.type = some (q * p))
    ∧ (isSecurityType account.type = false →
        ∀ h, getHoldingValue cache h account.type = some (h.balance.getD 0)) := by
  refine ⟨?_, ?_, ?_⟩
  · rw [getAccountBalance, foldl_holdingValues, zero_add]
  · intro h q p hsec hq _hq0 hp
    simp [getHoldingMarketValue, getHoldingValue, hsec, hp, hq]
  · intro hsec h
    simp [getHoldingValue, hsec]

/-- C5 witness: a Retirement holding of 2 shares priced at 200 by the
cache is valued at 2 × 200. -/
theorem getAccountBalance_spec_witness :
    getHoldingMarketValue [("VTI", 200)] { ticker := some "VTI", quantity := some 2 }
      AccountType.Retirement = some (2 * 200) :=
  (getAccountBalance_spec [("VTI", 200)] { type := AccountType.Retirement }).2.1
    { ticker := some "VTI", quantity := some 2 } 2 200 rfl rfl (by norm_num) rfl

/-! ### C6: profit/loss percentage never divides by zero -/

/-- C6: `getHoldingProfitLossPct` is null exactly when the cost basis is
null or zero or the dollar P/L is null, and otherwise equals
`(dollarPL / costBasis) * 100` (so it never divides by zero). -/
theorem getHoldingProfitLossPct_spec (cache : PriceCache) (h : Holding) (t : AccountType) :
    (getHoldingProfitLossPct cache h t = none ↔
      getHoldingCostBasis h t = none ∨ getHoldingCostBasis h t = some 0
        ∨ getHoldingProfitLossDollar cache h t = none)
    ∧ (∀ cb pl, getHoldingCostBasis h t = some cb → cb ≠ 0 →
        getHoldingProfitLossDollar cache h t = some pl →
        getHoldingProfitLossPct cache h t = some (pl / cb * 100)) := by
  constructor
  · cases hcb : getHoldingCostBasis h t with
    | none => simp [getHoldingProfitLossPct, hcb]
    | some cb =>
      cases hpl : getHoldingProfitLossDollar cache h t with
      | none => simp [getHoldingProfitLossPct, hcb, hpl]
      | some pl =>
        by_cases hz : cb = 0
        · simp [getHoldingProfitLossPct, hcb, hpl, hz]
        · simp [getHoldingProfitLossPct, hcb, hpl, hz]
  · intro cb pl hcb hz hpl
    simp [getHoldingProfitLossPct, hcb, hpl, hz]

/-- C6 witness: a holding bought and still priced at 150 has cost basis
10 × 150 ≠ 0 and P/L percentage ((10·150 − 10·150) / (10·150)) · 100. -/
theorem getHoldingProfitLossPct_spec_witness :
    getHoldingProfitLossPct [] { ticker := some "VTI", quantity := some 10, purchasePrice := some 150 }
      AccountType.Retirement
      = some ((10 * 150 - 10 * 150) / (10 * 150) * 100) :=
  (getHoldingProfitLossPct_spec [] { ticker := some "VTI", quantity := some 10, purchasePrice := some 150 }
      AccountType.Retirement).2 (10 * 150) (10 * 150 - 10 * 150) rfl (by norm_num) rfl

/-! ### C9: purchase price resolution and legacy costBasis compatibility -/

lemma holding_downstream_congr (cache : PriceCache) (t : AccountType) (h1 h2 : Holding)
    (hq : h1.quantity = h2.quantity) (ht : h1.ticker = h2.ticker)
    (hov : h1.priceOverride = h2.priceOverride) (hb : h1.balance = h2.balance)
    (hpp : getPurchasePrice h1 = getPurchasePrice h2) :
    getCurrentPrice cache h1 = getCurrentPrice cache h2
    ∧ getHoldingCostBasis h1 t = getHoldingCostBasis h2 t
    ∧ getHoldingValue cache h1 t = getHoldingValue cache h2 t
    ∧ getHoldingProfitLossDollar cache h1 t = getHoldingProfitLossDollar cache h2 t
    ∧ getHoldingProfitLossPct cache h1 t = getHoldingProfitLossPct cache h2 t := by
  have hcp : getCurrentPrice cache h1 = getCurrentPrice cache h2 := by
    unfold getCurrentPrice
    rw [hov, ht, hpp]
  have hcb : getHoldingCostBasis h1 t = getHoldingCostBasis h2 t := by
    unfold getHoldingCostBasis
    rw [hpp, hq]
  have hv : getHoldingValue cache h1 t = getHoldingValue cache h2 t := by
    unfold getHoldingValue
    rw [hcp, hq, hb]
  have hpd : getHoldingProfitLossDollar cache h1 t = getHoldingProfitLossDollar cache h2 t := by
    unfold getHoldingProfitLossDollar getHoldingMarketValue
    rw [hcb, hv]
  have hpc : getHoldingProfitLossPct cache h1 t = getHoldingProfitLossPct cache h2 t := by
    unfold getHoldingProfitLossPct
    rw [hcb, hpd]
  exact ⟨hcp, hcb, hv, hpd, hpc⟩

/-- C9: `getPurchasePrice` returns the stored per-unit price when present;
otherwise `costBasis / quantity` when the legacy total is positive and the
quantity is positive; otherwise null — and the legacy holding
(costBasis 1500, quantity 10) resolves per-unit price 150 with downstream
cost basis, market value and P/L identical to a holding storing
purchasePrice 150 directly. -/
theorem getPurchasePrice_spec (h : Holding) :
    (∀ pp, h.purchasePrice = some pp → getPurchasePrice h = some pp)
    ∧ (∀ cb, h.purchasePrice = none → h.costBasis = some cb → 0 < cb →
        0 < h.quantity.getD 0 → getPurchasePrice h = some (cb / h.quantity.getD 0))
    ∧ (h.purchasePrice = none → h.costBasis = none → getPurchasePrice h = none)
    ∧ (∀ cb, h.purchasePrice = none → h.costBasis = some cb →
        ¬(0 < cb ∧ 0 < h.quantity.getD 0) → getPurchasePrice h = none)
    ∧ getPurchasePrice legacyHolding = some 150
    ∧ (∀ cache t,
        getPurchasePrice legacyHolding = getPurchasePrice directHolding
        ∧ getHoldingCostBasis legacyHolding t = getHoldingCostBasis directHolding t
        ∧ getHoldingMarketValue cache legacyHolding t = getHoldingMarketValue cache directHolding t
        ∧ getHoldingProfitLossDollar cache legacyHolding t
            = getHoldingProfitLossDollar cache directHolding t
        ∧ getHoldingProfitLossPct cache legacyHolding t
            = getHoldingProfitLossPct cache directHolding t) := by
  have hlegacy : getPurchasePrice legacyHolding = some 150 := by
    norm_num [getPurchasePrice, legacyHolding]
  refine ⟨?_, ?_, ?_, ?_, hlegacy, ?_⟩
  · intro pp hpp
    simp [getPurchasePrice, hpp]
  · intro cb hpp hcb hcbpos hqpos
    simp [getPurchasePrice, hpp, hcb, hcbpos, hqpos]
  · intro hpp hcb
    simp [getPurchasePrice, hpp, hcb]
  · intro cb hpp hcb hneg
    simp only [getPurchasePrice, hpp, hcb]
    rw [if_neg hneg]
  · intro cache t
    have hpp : getPurchasePrice legacyHolding = getPurchasePrice directHolding := by
      rw [hlegacy]; rfl
    obtain ⟨h1, h2, h3, h4, h5⟩ :=
      holding_downstream_congr cache t legacyHolding directHolding rfl rfl rfl rfl hpp
    exact ⟨hpp, h2, h3, h4, h5⟩

/-- C9 witness: a holding storing purchasePrice 42 resolves 42. -/
theorem getPurchasePrice_spec_witness :
    getPurchasePrice { purchasePrice := some 42 } = some 42 :=
  (getPurchasePrice_spec { purchasePrice := some 42 }).1 42 rfl

/-! ### C10: projected account balance is clamped at zero -/

/-- C10: `getProjectedAccountBalance` never returns a negative value, for
every account, forecast setting, contribution stop horizon and projection
year — the source clamps the computed future value with `Math.max(0, fv)`,
covering debts overpaid past zero and assets with negative returns. -/
theorem getProjectedAccountBalance_nonneg (cache : PriceCache) (account : Account)
    (monthlyContribution annualReturnPercent horizonYears : ℚ)
    (monthsUntilStop : Option ℚ) (yearsFromNow : ℚ) :
    0 ≤ getProjectedAccountBalance cache account monthlyContribution annualReturnPercent
      horizonYears monthsUntilStop yearsFromNow := le_max_left 0 _

/-! ### C7: formatter rendering of null input -/

/-- C7 counterexample: the full formatter renders null input as `$0.00`
(a zero amount), not as the placeholder dash the claim requires of both
formatters. -/
theorem formatMoneyFull_not_dash :
    formatMoneyFull none ≠ "—" ∧ formatMoneyFull none = "$0.00" := by
  constructor
  · decide
  · rfl

/-- C7 amended: null (and NaN, modelled as `none`) input renders as the
placeholder dash in the compact formatter but as `$0.00` in the full
formatter — neither throws nor emits NaN, but the full form emits a zero
amount rather than a dash. The compact form abbreviates with k/M suffixes
at and above 1,000/1,000,000 as claimed. -/
theorem formatMoney_null_rendering :
    formatMoney none = "—"
    ∧ formatMoneyFull none = "$0.00"
    ∧ formatMoney (some 1500) = "$1.5k"
    ∧ formatMoney (some 2500000) = "$2.50M"
    ∧ formatMoneyFull (some (2469/2)) = "$1,234.50" := by
  refine ⟨rfl, rfl, ?_, ?_, ?_⟩
  · have habs : |(1500:ℚ)| = 1500 := by norm_num
    have hdiv : (1500:ℚ)/1000 = 3/2 := by norm_num
    have hfix : toFixed 1 (3/2) = "1.5" := by
      unfold toFixed
      have h : ⌊(3:ℚ)/2 * 10 ^ 1 + 1/2⌋ = 15 := by
        rw [Int.floor_eq_iff]
        norm_num
      rw [h]
      decide
    simp only [formatMoney, habs, hdiv, hfix]
    norm_num
    decide
  · have habs : |(2500000:ℚ)| = 2500000 := by norm_num
    have hdiv : (2500000:ℚ)/1000000 = 5/2 := by norm_num
    have hfix : toFixed 2 (5/2) = "2.50" := by
      unfold toFixed
      have h : ⌊(5:ℚ)/2 * 10 ^ 2 + 1/2⌋ = 250 := by
        rw [Int.floor_eq_iff]
        norm_num
      rw [h]
      decide
    simp only [formatMoney, habs, hdiv, hfix]
    norm_num
    decide
  · have hneg : ¬((2469:ℚ)/2 < 0) := by norm_num
    have hm : ⌊(2469:ℚ)/2 * 100 + 1/2⌋ = 123450 := by
      rw [Int.floor_eq_iff]
      norm_num
    simp only [formatMoneyFull, intlFormatUSD, if_neg hneg, hm]
    decide

/-! ### C8: bulk import acceptance test -/

lemma foldl_importCSV (account : Account) (rows : List CSVRow) (st : Account × Nat) :
    rows.foldl (importStep account) st
      = ({ st.1 with holdings := st.1.holdings ++ csvAddedHoldings rows account },
         st.2 + (csvAddedHoldings rows account).length) := by
  induction rows generalizing st with
  | nil => simp [csvAddedHoldings]
  | cons row rest ih =>
    rw [List.foldl_cons]
    by_cases hc : isSecurityType account.type ∧ (parseCSVRowToHolding row).ticker ≠ ""
    · have hstep : importStep account st row
          = ({ st.1 with holdings := st.1.holdings ++ [parsedToHolding (parseCSVRowToHolding row)] },
             st.2 + 1) := by
        simp [importStep, hc]
      have hadd : csvAddedHoldings (row :: rest) account
          = parsedToHolding (parseCSVRowToHolding row) :: csvAddedHoldings rest account := by
        simp [csvAddedHoldings, hc]
      rw [hstep, ih, hadd]
      simp only [Prod.mk.injEq, List.length_cons]
      constructor
      · simp [List.append_assoc]
      · omega
    · have hstep : importStep account st row = st := by
        simp only [importStep]
        rw [if_neg hc]
      have hadd : csvAddedHoldings (row :: rest) account = csvAddedHoldings rest account := by
        simp [csvAddedHoldings, hc]
      rw [hstep, ih, hadd]

/-- C8 counterexample: a CSV row with ticker `ABC` and unparseable
quantity `n/a` is not skipped — the importer adds a holding with
quantity 0, which is not positive, so a bulk import does not preserve the
creation/edit invariant `quantity > 0`. -/
theorem importFromCSVIntoAccount_zero_quantity :
    importFromCSVIntoAccount [{ ticker := "ABC", quantity := "n/a" }]
        { type := AccountType.Retirement }
      = ({ type := AccountType.Retirement,
           holdings := [{ ticker := some "ABC", quantity := some 0 }] }, 1)
    ∧ ¬(0 < (0 : ℚ)) := by
  constructor
  · decide
  · norm_num

/-- C8 amended: the bulk importer adds, in order, exactly the parsed rows
whose resolved ticker is non-empty — for a security account — leaving the
account type untouched; non-security accounts are never modified. Every
added holding therefore has a non-empty ticker, but no quantity check is
applied: unparseable quantities are coerced to 0 and non-positive
quantities are imported as-is, so only the non-empty-ticker half of the
creation/edit invariant survives a bulk import. -/
theorem importFromCSVIntoAccount_spec (rows : List CSVRow) (account : Account) :
    (importFromCSVIntoAccount rows account).1.type = account.type
    ∧ (importFromCSVIntoAccount rows account).1.holdings
        = account.holdings ++ csvAddedHoldings rows account
    ∧ (importFromCSVIntoAccount rows account).2 = (csvAddedHoldings rows account).length
    ∧ (isSecurityType account.type = false → importFromCSVIntoAccount rows account = (account, 0))
    ∧ (∀ h, h ∈ csvAddedHoldings rows account → ∃ t, h.ticker = some t ∧ t ≠ "") := by
  have hmain : importFromCSVIntoAccount rows account
      = ({ account with holdings := account.holdings ++ csvAddedHoldings rows account },
         (csvAddedHoldings rows account).length) := by
    cases rows with
    | nil => simp [importFromCSVIntoAccount, csvAddedHoldings]
    | cons r rs =>
      unfold importFromCSVIntoAccount
      rw [if_neg (by simp), foldl_importCSV]
      simp
  refine ⟨?_, ?_, ?_, ?_, ?_⟩
  · rw [hmain]
  · rw [hmain]
  · rw [hmain]
  · intro hsec
    have hadd : csvAddedHoldings rows account = [] := by
      simp [csvAddedHoldings, hsec]
    rw [hmain, hadd]
    simp
  · intro h hm
    simp only [csvAddedHoldings, List.mem_map, List.mem_filter] at hm
    obtain ⟨p, ⟨hp, hcond⟩, rfl⟩ := hm
    have hct : isSecurityType account.type = true ∧ p.ticker ≠ "" := by
      simpa using hcond
    exact ⟨p.ticker, rfl, hct.2⟩

/-- C8 witness: the holding added for the row with raw ticker `abc`
carries the non-empty uppercased ticker `ABC`. -/
theorem importFromCSVIntoAccount_spec_witness :
    ∃ t, (parsedToHolding (parseCSVRowToHolding { ticker := "abc" })).ticker
        = some t ∧ t ≠ "" :=
  (importFromCSVIntoAccount_spec [{ ticker := "abc" }]
      { type := AccountType.Retirement }).2.2.2.2
    (parsedToHolding (parseCSVRowToHolding { ticker := "abc" }))
    (by decide)

/-! ### C1: future value with contributions -/

lemma fvContribMonths_le (mc tm : ℚ) : fvContribMonths mc tm ≤ fvTotalMonths tm := by
  unfold fvContribMonths
  rw [Int.toNat_le]
  exact max_le (Int.natCast_nonneg _) (min_le_right _ _)

lemma annuityFV_zero_months (pmt i : ℝ) : annuityFV pmt i 0 = 0 := by
  unfold annuityFV
  split
  · simp
  · simp

/-- C1: the effective monthly rate is `(1 + r/100)^(1/12) - 1` (zero at a
zero annual rate); `futureValueWithContributions` equals the present value
grown for the clamped n months plus the m-month ordinary-annuity value
compounded for the remaining n − m months; a zero total-month horizon
returns the present value unchanged; and at zero effective rate the annuity
degenerates to `pmt * m` with no division by zero. -/
theorem futureValueWithContributions_spec (pv pmt annualPercent : ℝ) (mc tm : ℚ) :
    monthlyRateFromAnnual annualPercent = (1 + annualPercent / 100) ^ ((1 : ℝ) / 12) - 1
    ∧ futureValueWithContributions pv pmt annualPercent mc tm
        = pv * (1 + monthlyRateFromAnnual annualPercent) ^ fvTotalMonths tm
          + annuityFV pmt (monthlyRateFromAnnual annualPercent) (fvContribMonths mc tm)
            * (1 + monthlyRateFromAnnual annualPercent) ^ (fvTotalMonths tm - fvContribMonths mc tm)
    ∧ futureValueWithContributions pv pmt annualPercent mc 0 = pv
    ∧ (monthlyRateFromAnnual annualPercent = 0 →
        annuityFV pmt (monthlyRateFromAnnual annualPercent) (fvContribMonths mc tm)
          = pmt * ((fvContribMonths mc tm : ℕ) : ℝ))
    ∧ monthlyRateFromAnnual 0 = 0 := by
  have hbody : futureValueWithContributions pv pmt annualPercent mc tm
      = if fvTotalMonths tm = 0 then pv
        else if fvContribMonths mc tm = 0 then
          pv * (1 + monthlyRateFromAnnual annualPercent) ^ fvTotalMonths tm
        else if fvTotalMonths tm ≤ fvContribMonths mc tm then
          pv * (1 + monthlyRateFromAnnual annualPercent) ^ fvContribMonths mc tm
            + annuityFV pmt (monthlyRateFromAnnual annualPercent) (fvContribMonths mc tm)
        else
          (pv * (1 + monthlyRateFromAnnual annualPercent) ^ fvContribMonths mc tm
            + annuityFV pmt (monthlyRateFromAnnual annualPercent) (fvContribMonths mc tm))
            * (1 + monthlyRateFromAnnual annualPercent) ^ (fvTotalMonths tm - fvContribMonths mc tm) := rfl
  have hmn : fvContribMonths mc tm ≤ fvTotalMonths tm := fvContribMonths_le mc tm
  refine ⟨rfl, ?_, ?_, ?_, ?_⟩
  · rw [hbody]
    by_cases h0 : fvTotalMonths tm = 0
    · have hm0 : fvContribMonths mc tm = 0 := Nat.le_zero.mp (h0 ▸ hmn)
      rw [if_pos h0, h0, hm0]
      simp [annuityFV_zero_months]
    · rw [if_neg h0]
      by_cases hm0 : fvContribMonths mc tm = 0
      · rw [if_pos hm0, hm0]
        simp [annuityFV_zero_months]
      · rw [if_neg hm0]
        by_cases hnm : fvTotalMonths tm ≤ fvContribMonths mc tm
        · have heq : fvContribMonths mc tm = fvTotalMonths tm := le_antisymm hmn hnm
          rw [if_pos hnm, heq, Nat.sub_self, pow_zero, mul_one]
        · rw [if_neg hnm, add_mul, mul_assoc, ← pow_add, Nat.add_sub_cancel' hmn]
  · have h00 : fvTotalMonths (0 : ℚ) = 0 := by decide
    simp only [futureValueWithContributions, h00, if_true]
  · intro hz
    unfold annuityFV
    rw [if_pos hz]
  · show (1 + (0:ℝ) / 100) ^ ((1:ℝ) / 12) - 1 = 0
    norm_num [Real.one_rpow]

/-- C1 witness: at a zero annual rate the effective monthly rate is zero
and the annuity value over the clamped months of (3, 5) is `pmt * m`. -/
theorem futureValueWithContributions_spec_witness :
    annuityFV 7 (monthlyRateFromAnnual 0) (fvContribMonths 3 5)
      = 7 * ((fvContribMonths 3 5 : ℕ) : ℝ) :=
  (futureValueWithContributions_spec 1 7 0 3 5).2.2.2.1
    ((futureValueWithContributions_spec 1 7 0 3 5).2.2.2.2)

/-! ### C2: months to pay off a loan -/

lemma monthlyRateFromAnnual_pos (a : ℝ) (ha : 0 < a) : 0 < monthlyRateFromAnnual a := by
  unfold monthlyRateFromAnnual
  have hx : (1 : ℝ) < 1 + a / 100 := by linarith
  have hpow : (1 : ℝ) < (1 + a / 100) ^ ((1 : ℝ) / 12) := by
    rw [Real.one_lt_rpow_iff_of_pos (by linarith : (0:ℝ) < 1 + a / 100)]
    exact Or.inl ⟨hx, by norm_num⟩
  linarith

lemma monthsToPayoffLoan_body (pv pmt a : ℝ) :
    monthsToPayoffLoan pv pmt a
      = if pv ≤ 0 then some 0
        else if pmt ≤ 0 then none
        else if pmt ≤ pv * monthlyRateFromAnnual a then none
        else if ⌈payoffMonthsExact pv pmt a⌉ ≤ 0 then none
        else some ⌈payoffMonthsExact pv pmt a⌉ := rfl

/-- C2 counterexample: at a zero annual rate with a positive balance of
100 and a payment of 50 exceeding the (zero) monthly interest, the
function is in its "otherwise" case yet returns no month count at all
(the amortization expression degenerates to `log 1 / log 1`; the JS source
propagates NaN, the model routes the non-positive ceiling to null) —
refuting the claim that this case returns ceil of the formula. -/
theorem monthsToPayoffLoan_zero_rate :
    monthsToPayoffLoan 100 50 0 = none
    ∧ monthsToPayoffLoan 100 50 0 ≠ some ⌈payoffMonthsExact 100 50 0⌉
    ∧ (0 : ℝ) < 100 ∧ (0 : ℝ) < 50 ∧ 100 * monthlyRateFromAnnual 0 < 50 := by
  have hr : monthlyRateFromAnnual 0 = 0 := by
    show (1 + (0:ℝ) / 100) ^ ((1:ℝ) / 12) - 1 = 0
    norm_num [Real.one_rpow]
  have hpm : payoffMonthsExact 100 50 0 = 0 := by
    unfold payoffMonthsExact
    rw [hr]
    norm_num
  have hnone : monthsToPayoffLoan 100 50 0 = none := by
    rw [monthsToPayoffLoan_body]
    rw [if_neg (by norm_num : ¬(100:ℝ) ≤ 0), if_neg (by norm_num : ¬(50:ℝ) ≤ 0),
      if_neg (by rw [hr]; norm_num : ¬(50:ℝ) ≤ 100 * monthlyRateFromAnnual 0),
      if_pos (by rw [hpm]; simp)]
  refine ⟨hnone, ?_, by norm_num, by norm_num, by rw [hr]; norm_num⟩
  rw [hnone]
  simp

/-- C2 amended: `monthsToPayoffLoan` returns 0 months for a non-positive
balance; null for a non-positive payment or a payment not exceeding the
monthly interest `pv * r`; and otherwise returns
`ceil(log(pmt / (pmt - pv*r)) / log(1+r))` whole months whenever that
ceiling is positive — which the final guard forces: when the ceiling is
not positive (as at zero effective rate, where the formula degenerates to
0/0) it returns null, not a month count. For every positive annual rate
the exact month count and its ceiling are positive, so the formula case
always yields whole months there. -/
theorem monthsToPayoffLoan_spec (pv pmt a : ℝ) :
    (pv ≤ 0 → monthsToPayoffLoan pv pmt a = some 0)
    ∧ (0 < pv → pmt ≤ 0 → monthsToPayoffLoan pv pmt a = none)
    ∧ (0 < pv → 0 < pmt → pmt ≤ pv * monthlyRateFromAnnual a →
        monthsToPayoffLoan pv pmt a = none)
    ∧ (0 < pv → 0 < pmt → pv * monthlyRateFromAnnual a < pmt →
        0 < ⌈payoffMonthsExact pv pmt a⌉ →
        monthsToPayoffLoan pv pmt a = some ⌈payoffMonthsExact pv pmt a⌉)
    ∧ (0 < pv → 0 < pmt → pv * monthlyRateFromAnnual a < pmt →
        ⌈payoffMonthsExact pv pmt a⌉ ≤ 0 → monthsToPayoffLoan pv pmt a = none)
    ∧ (0 < a → 0 < pv → pv * monthlyRateFromAnnual a < pmt →
        0 < payoffMonthsExact pv pmt a ∧ 0 < ⌈payoffMonthsExact pv pmt a⌉) := by
  refine ⟨?_, ?_, ?_, ?_, ?_, ?_⟩
  · intro h
    rw [monthsToPayoffLoan_body, if_pos h]
  · intro h1 h2
    rw [monthsToPayoffLoan_body, if_neg (not_le.mpr h1), if_pos h2]
  · intro h1 h2 h3
    rw [monthsToPayoffLoan_body, if_neg (not_le.mpr h1), if_neg (not_le.mpr h2), if_pos h3]
  · intro h1 h2 h3 h4
    rw [monthsToPayoffLoan_body, if_neg (not_le.mpr h1), if_neg (not_le.mpr h2),
      if_neg (not_le.mpr h3), if_neg (not_le.mpr h4)]
  · intro h1 h2 h3 h5
    rw [monthsToPayoffLoan_body, if_neg (not_le.mpr h1), if_neg (not_le.mpr h2),
      if_neg (not_le.mpr h3), if_pos h5]
  · intro ha h1 h3
    have hr := monthlyRateFromAnnual_pos a ha
    have hintpos : 0 < pv * monthlyRateFromAnnual a := mul_pos h1 hr
    have hden : 0 < pmt - pv * monthlyRateFromAnnual a := sub_pos.mpr h3
    have hratio : 1 < pmt / (pmt - pv * monthlyRateFromAnnual a) := by
      rw [one_lt_div hden]
      linarith
    have hnum := Real.log_pos hratio
    have hdenlog := Real.log_pos (by linarith : (1:ℝ) < 1 + monthlyRateFromAnnual a)
    have hq : 0 < payoffMonthsExact pv pmt a := div_pos hnum hdenlog
    exact ⟨hq, Int.ceil_pos.mpr hq⟩

/-- C2 witness: an already-paid-off balance returns 0 months; a zero
payment on a positive balance returns null. -/
theorem monthsToPayoffLoan_spec_witness :
    monthsToPayoffLoan (-1) 50 5 = some 0 ∧ monthsToPayoffLoan 100 0 5 = none :=
  ⟨(monthsToPayoffLoan_spec (-1) 50 5).1 (by norm_num),
   (monthsToPayoffLoan_spec 100 0 5).2.1 (by norm_num) (by norm_num)⟩
